import Mathlib

/-!
Verification of the goiryoku-kojo backend against its specification.

The development shallowly embeds the Python code of
`backend/functions/score_answers/main.py`, `backend/functions/get_words/main.py`,
`backend/functions/generate_words/main.py` and
`backend/functions/shared/gemini_client.py`.

Conventions of the embedding:
- JSON-decoded Python values are the inductive `Json` below; the external
  `json` standard library (`json.loads`, `json.dumps`) is modelled by
  executable Lean functions over `Json`, restricted to integer numerals.
- Python exceptions are modelled by `Except PyErr`; an uncaught exception is
  an `Except.error` result.
- Wall-clock instants (`time.time()`) are rationals (`ℚ`).
- Calendar dates are identified with their day ordinals (`Int`): Python
  `date` objects order and step (`+ timedelta(days=1)`) exactly like their
  ordinals, and `date.isoformat` is injective, so a set of existing date
  strings is modelled by a membership predicate on ordinals.
- Strings handed to the parsers are lists of characters; the Python `str`
  methods used by the code (`strip`, `startswith`, `endswith`, slicing) are
  modelled over `List Char`.
-/

/-- Python exception kinds that the embedded code can raise.  The two
`parse` constructors model `GeminiParseError` with its two distinct
messages ("Failed to parse JSON" and "Response missing 'words' key"). -/
inductive PyErr where
  | typeError
  | attributeError
  | keyError
  | valueError
  | parseInvalidJson
  | parseMissingWords
  deriving Repr, DecidableEq

/-- A JSON value as decoded by Python's `json.loads`, with numerals
restricted to integers (no claim involves fractional numerals).  Objects
keep their key/value pairs in source order; lookup takes the last binding,
as Python dict construction does. -/
inductive Json where
  | null
  | bool (b : Bool)
  | num (n : Int)
  | str (s : String)
  | arr (xs : List Json)
  | obj (kvs : List (String × Json))
  deriving Repr, Inhabited

/-- Whether a JSON value is a string. -/
def Json.isStr : Json → Bool
  | .str _ => true
  | _ => false

/-- Whether a JSON value is an object. -/
def Json.isObj : Json → Bool
  | .obj _ => true
  | _ => false

/-- Equality test of a JSON value against a Python string (Python `==`
between a decoded value and a `str` literal: true only for an equal
string). -/
def jsonEqStr (j : Json) (s : String) : Bool :=
  match j with
  | .str t => t == s
  | _ => false

/-- Lookup of a key in a decoded JSON object, last binding wins (Python
builds a `dict` from the pairs in order, so a duplicated key keeps its last
value). -/
def objGet (kvs : List (String × Json)) (k : String) : Option Json :=
  (kvs.reverse.find? (fun p => p.1 == k)).map (fun p => p.2)

mutual

/-- Model of Python `json.dumps(v, ensure_ascii=False)` with the default
separators; string escaping is restricted to the quote and backslash
characters, which is exact for every payload appearing in this
development. -/
def Json.dumps : Json → String
  | .null => "null"
  | .bool b => if b then "true" else "false"
  | .num n => toString n
  | .str s => "\"" ++ s ++ "\""
  | .arr xs => "[" ++ Json.dumpsList xs ++ "]"
  | .obj kvs => "\x7b" ++ Json.dumpsKVs kvs ++ "\x7d"

/-- Comma-separated rendering of array elements for `Json.dumps`. -/
def Json.dumpsList : List Json → String
  | [] => ""
  | [x] => Json.dumps x
  | x :: xs => Json.dumps x ++ ", " ++ Json.dumpsList xs

/-- Comma-separated rendering of object entries for `Json.dumps`. -/
def Json.dumpsKVs : List (String × Json) → String
  | [] => ""
  | [(k, v)] => "\"" ++ k ++ "\": " ++ Json.dumps v
  | (k, v) :: kvs => "\"" ++ k ++ "\": " ++ Json.dumps v ++ ", " ++ Json.dumpsKVs kvs

end

mutual

/-- Model of Python `repr` on a JSON-decoded value (used by `str` inside
containers): strings are quoted with single quotes, `None`/`True`/`False`
keep their Python spellings. -/
def pyRepr : Json → String
  | .null => "None"
  | .bool b => if b then "True" else "False"
  | .num n => toString n
  | .str s => "\x27" ++ s ++ "\x27"
  | .arr xs => "[" ++ pyReprList xs ++ "]"
  | .obj kvs => "\x7b" ++ pyReprKVs kvs ++ "\x7d"

/-- Comma-separated element rendering for `pyRepr`. -/
def pyReprList : List Json → String
  | [] => ""
  | [x] => pyRepr x
  | x :: xs => pyRepr x ++ ", " ++ pyReprList xs

/-- Comma-separated entry rendering for `pyRepr`. -/
def pyReprKVs : List (String × Json) → String
  | [] => ""
  | [(k, v)] => "\x27" ++ k ++ "\x27: " ++ pyRepr v
  | (k, v) :: kvs => "\x27" ++ k ++ "\x27: " ++ pyRepr v ++ ", " ++ pyReprKVs kvs

end

/-- Model of Python `str()` on a JSON-decoded value: identity on strings,
Python spellings for the scalars, `repr`-based rendering inside
containers.  `str()` never raises. -/
def pyStrOf : Json → String
  | .str s => s
  | j => pyRepr j

/-- Digits-to-number accumulator for `pyIntOfStr`. -/
def digitsToNat (ds : List Char) : Nat :=
  ds.foldl (fun a c => a * 10 + (c.toNat - 48)) 0

/-- Model of Python `int(s)` on a string: surrounding whitespace and one
optional sign are allowed around a nonempty digit run; anything else
raises `ValueError`. -/
def pyIntOfStr (s : String) : Except PyErr Int :=
  let cs := ((s.toList.dropWhile Char.isWhitespace).reverse.dropWhile
      Char.isWhitespace).reverse
  match cs with
  | '-' :: ds =>
    if ds ≠ [] ∧ ds.all Char.isDigit then .ok (-(digitsToNat ds : Int))
    else .error .valueError
  | '+' :: ds =>
    if ds ≠ [] ∧ ds.all Char.isDigit then .ok (digitsToNat ds : Int)
    else .error .valueError
  | ds =>
    if ds ≠ [] ∧ ds.all Char.isDigit then .ok (digitsToNat ds : Int)
    else .error .valueError

/-- Model of Python `int(v)` on a JSON-decoded value: numbers pass
through, booleans become 0/1, strings are parsed (`ValueError` on
failure), and `None`, lists and dicts raise `TypeError`. -/
def pyIntOf : Json → Except PyErr Int
  | .num n => .ok n
  | .bool b => .ok (if b then 1 else 0)
  | .str s => pyIntOfStr s
  | _ => .error .typeError

/-- Model of Python truthiness (`bool(v)`) on a JSON-decoded value:
`None`, `False`, `0`, `""`, `[]` and an empty dict are falsy. -/
def pyFalsy : Json → Bool
  | .null => true
  | .bool b => !b
  | .num n => n == 0
  | .str s => s.isEmpty
  | .arr xs => xs.isEmpty
  | .obj kvs => kvs.isEmpty

/-- Model of Python `k in v` for a string `k` and a JSON-decoded value:
key membership on dicts, substring test on strings, element equality on
lists; numbers, booleans and `None` raise `TypeError` (not iterable). -/
def pyIn (k : String) (j : Json) : Except PyErr Bool :=
  match j with
  | .obj kvs => .ok (kvs.any (fun p => p.1 == k))
  | .str s => .ok (decide (List.IsInfix k.toList s.toList))
  | .arr xs => .ok (xs.any (fun x => jsonEqStr x k))
  | _ => .error .typeError

/-- Model of Python `v[k]` for a string key: dict lookup (`KeyError` when
absent); strings and lists reject a string index with `TypeError`, as do
the scalars. -/
def pySubscript (j : Json) (k : String) : Except PyErr Json :=
  match j with
  | .obj kvs =>
    match objGet kvs k with
    | some v => .ok v
    | none => .error .keyError
  | _ => .error .typeError

/-- Model of Python `v.get(k, default)`: only dicts have a `get` method,
every other decoded value raises `AttributeError`. -/
def pyGet (j : Json) (k : String) (dflt : Json) : Except PyErr Json :=
  match j with
  | .obj kvs => .ok ((objGet kvs k).getD dflt)
  | _ => .error .attributeError

/-- Model of Python iteration `for x in v`: list of elements for a list,
characters (as one-character strings) for a string, keys for a dict;
scalars raise `TypeError`. -/
def pyIter : Json → Except PyErr (List Json)
  | .arr xs => .ok xs
  | .str s => .ok (s.toList.map (fun c => Json.str (String.mk [c])))
  | .obj kvs => .ok (kvs.map (fun p => Json.str p.1))
  | _ => .error .typeError

/-- Whether an `Except` result is a normal return (no exception). -/
def exOk : Except PyErr α → Bool
  | .ok _ => true
  | .error _ => false

/-- Opening brace character. -/
def lbrace : Char := Char.ofNat 123

/-- Closing brace character. -/
def rbrace : Char := Char.ofNat 125

/-- Model of Python `str.strip()` over characters (whitespace on both
ends removed; `Char.isWhitespace` covers the ASCII whitespace the AI
responses contain). -/
def pyStrip (cs : List Char) : List Char :=
  ((cs.dropWhile Char.isWhitespace).reverse.dropWhile Char.isWhitespace).reverse

/-- The fence-stripping of `GeminiClient._parse_response` (gemini_client.py
lines 140-147) and `_parse_score_response` (lines 306-313), which are
textually identical: strip, drop a leading three-backtick json fence tag,
drop a remaining leading bare fence, drop a trailing fence, strip again. -/
def cleanResponseText (cs : List Char) : List Char :=
  let c1 := pyStrip cs
  let c2 := if ("```json".toList.isPrefixOf c1) then c1.drop 7 else c1
  let c3 := if ("```".toList.isPrefixOf c2) then c2.drop 3 else c2
  let c4 := if ("```".toList.isSuffixOf c3) then c3.take (c3.length - 3) else c3
  pyStrip c4

/-- JSON inter-token whitespace (RFC 8259: space, tab, newline, carriage
return), as accepted by `json.loads`. -/
def jsonWs (c : Char) : Bool :=
  c == ' ' || c == '\t' || c == '\n' || c == '\r'

/-- Skip JSON inter-token whitespace. -/
def skipWs (cs : List Char) : List Char :=
  cs.dropWhile jsonWs

/-- Hexadecimal digit value, for string escapes. -/
def hexVal (c : Char) : Option Nat :=
  if c.isDigit then some (c.toNat - 48)
  else if 'a' ≤ c ∧ c ≤ 'f' then some (c.toNat - 87)
  else if 'A' ≤ c ∧ c ≤ 'F' then some (c.toNat - 55)
  else none

/-- Body of a JSON string after the opening quote: plain characters and
the standard escapes up to the closing quote.  Fuel-indexed; `loads`
supplies enough fuel for any input. -/
def parseStringBody : Nat → List Char → List Char → Option (String × List Char)
  | 0, _, _ => none
  | _ + 1, _, [] => none
  | fuel + 1, acc, c :: rest =>
    if c = '"' then some (String.mk acc.reverse, rest)
    else if c = '\\' then
      match rest with
      | [] => none
      | e :: r2 =>
        if e = '"' then parseStringBody fuel ('"' :: acc) r2
        else if e = '\\' then parseStringBody fuel ('\\' :: acc) r2
        else if e = '/' then parseStringBody fuel ('/' :: acc) r2
        else if e = 'b' then parseStringBody fuel (Char.ofNat 8 :: acc) r2
        else if e = 'f' then parseStringBody fuel (Char.ofNat 12 :: acc) r2
        else if e = 'n' then parseStringBody fuel ('\n' :: acc) r2
        else if e = 'r' then parseStringBody fuel ('\r' :: acc) r2
        else if e = 't' then parseStringBody fuel ('\t' :: acc) r2
        else if e = 'u' then
          match r2 with
          | h1 :: h2 :: h3 :: h4 :: r3 =>
            match hexVal h1, hexVal h2, hexVal h3, hexVal h4 with
            | some a, some b, some c2, some d =>
              parseStringBody fuel
                (Char.ofNat (((a * 16 + b) * 16 + c2) * 16 + d) :: acc) r3
            | _, _, _, _ => none
          | _ => none
        else none
    else if c.toNat < 32 then none
    else parseStringBody fuel (c :: acc) rest

/-- A JSON numeral: optional minus, nonempty digit run with no redundant
leading zero.  Fractional and exponent forms are outside the model (see
the module comment); they make the model's `loads` fail where Python
would produce a float, which no claim exercises. -/
def parseNumber (cs : List Char) : Option (Json × List Char) :=
  let p := match cs with
    | '-' :: r => (true, r)
    | _ => (false, cs)
  let ds := p.2.takeWhile Char.isDigit
  let rest := p.2.drop ds.length
  if ds = [] then none
  else if ds.length > 1 ∧ ds.head? = some '0' then none
  else some (Json.num (if p.1 then -(digitsToNat ds : Int) else (digitsToNat ds : Int)), rest)

mutual

/-- One JSON value at the head of the input (whitespace already
skipped). -/
def parseVal : Nat → List Char → Option (Json × List Char)
  | 0, _ => none
  | _ + 1, [] => none
  | fuel + 1, c :: rest =>
    if c = '"' then
      (parseStringBody (rest.length + 1) [] rest).map (fun p => (Json.str p.1, p.2))
    else if c = '[' then
      match skipWs rest with
      | ']' :: r2 => some (Json.arr [], r2)
      | cs2 =>
        (parseItems fuel cs2).map (fun p => (Json.arr p.1, p.2))
    else if c = lbrace then
      match skipWs rest with
      | d :: r2 =>
        if d = rbrace then some (Json.obj [], r2)
        else (parseEntries fuel (d :: r2)).map (fun p => (Json.obj p.1, p.2))
      | [] => none
    else if c = 't' then
      if "rue".toList.isPrefixOf rest then some (Json.bool true, rest.drop 3) else none
    else if c = 'f' then
      if "alse".toList.isPrefixOf rest then some (Json.bool false, rest.drop 4) else none
    else if c = 'n' then
      if "ull".toList.isPrefixOf rest then some (Json.null, rest.drop 3) else none
    else parseNumber (c :: rest)

/-- Comma-separated array items up to the closing bracket. -/
def parseItems : Nat → List Char → Option (List Json × List Char)
  | 0, _ => none
  | fuel + 1, cs =>
    match parseVal fuel cs with
    | none => none
    | some (v, rest) =>
      match skipWs rest with
      | ',' :: r2 => (parseItems fuel (skipWs r2)).map (fun p => (v :: p.1, p.2))
      | ']' :: r2 => some ([v], r2)
      | _ => none

/-- Comma-separated object entries up to the closing brace. -/
def parseEntries : Nat → List Char → Option (List (String × Json) × List Char)
  | 0, _ => none
  | fuel + 1, cs =>
    match cs with
    | '"' :: rest =>
      match parseStringBody (rest.length + 1) [] rest with
      | none => none
      | some (k, r2) =>
        match skipWs r2 with
        | ':' :: r3 =>
          match parseVal fuel (skipWs r3) with
          | none => none
          | some (v, r4) =>
            match skipWs r4 with
            | d :: r5 =>
              if d = ',' then
                (parseEntries fuel (skipWs r5)).map (fun p => ((k, v) :: p.1, p.2))
              else if d = rbrace then some ([(k, v)], r5)
              else none
            | [] => none
        | _ => none
    | _ => none

end

/-- Model of Python `json.loads` on the character list of the input: one
JSON value surrounded by optional whitespace; `none` models
`json.JSONDecodeError`. -/
def Json.loads (cs : List Char) : Option Json :=
  match parseVal (cs.length + 1) (skipWs cs) with
  | some (v, rest) => if skipWs rest = [] then some v else none
  | none => none

/-- The scoring result dictionary built by
`GeminiClient._parse_score_response`. -/
structure ScoreResult where
  score : Int
  feedback : String
  deriving Repr, DecidableEq

/-- The localized default feedback used by the degraded scoring result
(gemini_client.py line 326). -/
def SCORE_PARSE_FAIL_MSG : String := "スコアの解析に失敗しました。"

/-- Embedding of `GeminiClient._parse_score_response` (gemini_client.py
lines 303-327).  The `try` block cleans the text, decodes it and builds
`score`/`feedback`; the `except (json.JSONDecodeError, ValueError)`
clause returns the degraded default.  Any other exception — the
`AttributeError` of `.get` on a non-dict, or the `TypeError` of `int()`
on `None`, a list or a dict — propagates as `Except.error`. -/
def parse_score_response (response_text : List Char) : Except PyErr ScoreResult :=
  match Json.loads (cleanResponseText response_text) with
  | none => .ok ⟨0, SCORE_PARSE_FAIL_MSG⟩
  | some data =>
    match pyGet data "score" (Json.num 0) with
    | .error e => .error e
    | .ok sv =>
      match pyIntOf sv with
      | .error .valueError => .ok ⟨0, SCORE_PARSE_FAIL_MSG⟩
      | .error e => .error e
      | .ok n =>
        match pyGet data "feedback" (Json.str "") with
        | .error e => .error e
        | .ok fv => .ok ⟨n, pyStrOf fv⟩

/-- A validated word record as built by `GeminiClient._parse_response`
(gemini_client.py lines 161-166): exactly the four required keys, with
the values taken from the response object without any type check. -/
structure WordRec where
  date : Json
  word : Json
  reading : Json
  word_en : Json
  deriving Repr

/-- The required keys of a word entry (gemini_client.py line 158). -/
def REQUIRED_WORD_KEYS : List String := ["date", "word", "reading", "word_en"]

/-- Python `all(k in word for k in keys)`: short-circuiting conjunction
of membership tests, any raised error propagating. -/
def allKeysIn (keys : List String) (w : Json) : Except PyErr Bool :=
  match keys with
  | [] => .ok true
  | k :: ks =>
    match pyIn k w with
    | .error e => .error e
    | .ok false => .ok false
    | .ok true => allKeysIn ks w

/-- The dict construction of gemini_client.py lines 161-166: subscript
the four required keys in order. -/
def extractWord (w : Json) : Except PyErr WordRec :=
  match pySubscript w "date" with
  | .error e => .error e
  | .ok d =>
    match pySubscript w "word" with
    | .error e => .error e
    | .ok wd =>
      match pySubscript w "reading" with
      | .error e => .error e
      | .ok rd =>
        match pySubscript w "word_en" with
        | .error e => .error e
        | .ok en => .ok ⟨d, wd, rd, en⟩

/-- The validation loop of `GeminiClient._parse_response`
(gemini_client.py lines 157-166): an entry missing a required key is
skipped, a complete entry is appended. -/
def validateWords : List Json → Except PyErr (List WordRec)
  | [] => .ok []
  | w :: ws =>
    match allKeysIn REQUIRED_WORD_KEYS w with
    | .error e => .error e
    | .ok false => validateWords ws
    | .ok true =>
      match extractWord w with
      | .error e => .error e
      | .ok r =>
        match validateWords ws with
        | .error e => .error e
        | .ok rs => .ok (r :: rs)

/-- Embedding of `GeminiClient._parse_response` (gemini_client.py lines
126-173): clean, decode (`JSONDecodeError` becomes
`GeminiParseError("Failed to parse JSON …")`), require the `words` key
(`GeminiParseError("Response missing 'words' key")`), iterate and
validate.  Exceptions other than `JSONDecodeError` are not caught. -/
def parse_response (response_text : List Char) : Except PyErr (List WordRec) :=
  match Json.loads (cleanResponseText response_text) with
  | none => .error .parseInvalidJson
  | some data =>
    match pyIn "words" data with
    | .error e => .error e
    | .ok false => .error .parseMissingWords
    | .ok true =>
      match pySubscript data "words" with
      | .error e => .error e
      | .ok words =>
        match pyIter words with
        | .error e => .error e
        | .ok ws => validateWords ws

/-- Rate limit window in seconds (score_answers/main.py line 23). -/
def RATE_LIMIT_WINDOW_SECONDS : ℚ := 60

/-- Maximum requests per window (score_answers/main.py line 24). -/
def RATE_LIMIT_MAX_REQUESTS : Nat := 10

/-- Model of Python `int(x)` on a rational: truncation toward zero. -/
def pyTruncQ (q : ℚ) : Int :=
  if 0 ≤ q then ⌊q⌋ else ⌈q⌉

/-- Embedding of `_cleanup_old_requests` (score_answers/main.py lines
41-43): keep the timestamps strictly newer than the window start. -/
def cleanup_old_requests (timestamps : List ℚ) (window_start : ℚ) : List ℚ :=
  timestamps.filter (fun ts => window_start < ts)

/-- Embedding of `_check_rate_limit` (score_answers/main.py lines 46-73)
for a single client key: from the key's stored timestamp list and the
current time, produce `(is_allowed, retry_after_seconds)` and the key's
new stored list.  The lock around the Python body serialises the
read-prune-write sequence, so one call is one atomic step. -/
def check_rate_limit (stored : List ℚ) (current_time : ℚ) :
    Bool × Int × List ℚ :=
  let window_start := current_time - RATE_LIMIT_WINDOW_SECONDS
  let pruned := cleanup_old_requests stored window_start
  if RATE_LIMIT_MAX_REQUESTS ≤ pruned.length then
    let oldest_in_window := (pruned.min?).getD 0
    let retry_after := pyTruncQ (oldest_in_window + RATE_LIMIT_WINDOW_SECONDS - current_time) + 1
    (false, max 1 retry_after, pruned)
  else
    (true, 0, pruned ++ [current_time])

/-- The stored list of one client key after a sequence of checks at times
`t 0, t 1, …`, starting from the key's initial empty list
(`defaultdict(list)`, score_answers/main.py line 28). -/
def storeAfter (t : Nat → ℚ) : Nat → List ℚ
  | 0 => []
  | n + 1 => (check_rate_limit (storeAfter t n) (t n)).2.2

/-- Embedding of `get_missing_dates` (generate_words/main.py lines
23-48).  Dates are day ordinals; the set of existing date strings
fetched from the store is the membership predicate `existing` (the
string comparison `current.isoformat() not in existing_dates` is the
predicate applied to the ordinal, `isoformat` being injective). -/
def get_missing_dates (existing : Int → Bool) (start_date end_date : Int) :
    List Int :=
  if _h : start_date ≤ end_date then
    (if existing start_date then [] else [start_date]) ++
      get_missing_dates existing (start_date + 1) end_date
  else
    []
termination_by (end_date + 1 - start_date).toNat
decreasing_by
  omega

/-- Day-count resolution of `get_words` (get_words/main.py lines 76-77):
the optional query parameter defaults to 30 (also when the value does not
parse as an integer, per the framework's `type=int` contract) and is
clamped to `[1, 30]`. -/
def get_words_days (arg : Option Int) : Int :=
  min (max (arg.getD 30) 1) 30

/-- Date range resolution of `get_words` (get_words/main.py lines
80-81): `[today, today + days - 1]` in day ordinals. -/
def get_words_range (today : Int) (arg : Option Int) : Int × Int :=
  (today, today + (get_words_days arg - 1))

/-- An HTTP response as constructed by the handlers: status code, body
text handed to the framework, and explicit headers. -/
structure HttpResp where
  status : Nat
  body : String
  headers : List (String × String)
  deriving Repr, DecidableEq

/-- The CORS header block of get_words/main.py lines 20-25. -/
def CORS_HEADERS : List (String × String) :=
  [("Access-Control-Allow-Origin", "*"),
   ("Access-Control-Allow-Methods", "GET, OPTIONS"),
   ("Access-Control-Allow-Headers", "Content-Type"),
   ("Access-Control-Max-Age", "3600")]

/-- Embedding of `create_response` (get_words/main.py lines 28-48): JSON
body from `json.dumps(data, ensure_ascii=False)` plus every CORS
header. -/
def create_response (data : Json) (status : Nat) : HttpResp :=
  ⟨status, Json.dumps data, CORS_HEADERS⟩

/-- Modelled from the spec: the message body the HTTP runtime (the
external WSGI layer, out of scope of the repository) actually sends for
a response — for a 204/304 status the body iterable is emptied, so a
preflight answer goes out with an empty body regardless of the string
the handler constructed. -/
def wireBody (r : HttpResp) : String :=
  if r.status = 204 ∨ r.status = 304 then "" else r.body

/-- Embedding of the `get_words` handler (get_words/main.py lines
52-107).  The Firestore fetch is external: its outcome is the `fetch`
parameter (`Except.error` models any raised exception, caught by the
handler's generic `except`).  `startStr`/`endStr` stand for the
isoformat renderings of the resolved range.  The `days` query parameter
arrives already converted by the framework (`none` when absent or not an
integer). -/
def get_words_handler (method : String) (fetch : Except Unit (List Json))
    (startStr endStr : String) : HttpResp :=
  if method = "OPTIONS" then
    create_response (Json.obj []) 204
  else if method ≠ "GET" then
    create_response (Json.obj [("error", Json.str "Method not allowed")]) 405
  else
    match fetch with
    | .ok words =>
      create_response
        (Json.obj
          [("success", Json.bool true),
           ("count", Json.num words.length),
           ("words", Json.arr words),
           ("date_range",
            Json.obj [("start", Json.str startStr), ("end", Json.str endStr)])]) 200
    | .error _ =>
      create_response
        (Json.obj
          [("success", Json.bool false),
           ("error", Json.str "Internal server error"),
           ("words", Json.arr [])]) 500

/-- The 429 body of score_answers/main.py lines 112-118. -/
def RATE_LIMIT_BODY : String :=
  Json.dumps (Json.obj
    [("success", Json.bool false),
     ("error", Json.str "リクエスト制限を超えました。しばらくしてから再度お試しください。")])

/-- Outcome of one `score_answers` invocation for one client key: the
response, the key's stored timestamp list after the request, and whether
the AI layer (`GeminiClient.score_answers`) was invoked. -/
structure ScoreOutcome where
  resp : HttpResp
  store : List ℚ
  aiCalled : Bool
  deriving Repr, DecidableEq

/-- Embedding of the `score_answers` handler (score_answers/main.py
lines 77-194) for one client key.  `body` is the framework's
`request.get_json(silent=True)` result (`none` on a missing or invalid
body), `stored` the key's timestamp list, `now` the current time, `ai`
the outcome of the external AI scoring call (`Except.error` models
`GeminiClientError`; its parse layer is `parse_score_response`).  The
`.get` calls sit inside `try … except Exception`, so their
`AttributeError` on a non-dict body yields the generic 500 response.
The 500 bodies interpolate the exception text (`str(e)`), which the
`Except.error Unit` abstraction cannot reproduce; they are rendered here
as fixed tags, and no claim mentions them. -/
def score_answers_handler (method : String) (body : Option Json)
    (stored : List ℚ) (now : ℚ) (ai : Except Unit ScoreResult) : ScoreOutcome :=
  if method = "OPTIONS" then
    ⟨⟨204, "",
      [("Access-Control-Allow-Origin", "*"),
       ("Access-Control-Allow-Methods", "POST, OPTIONS"),
       ("Access-Control-Allow-Headers", "Content-Type"),
       ("Access-Control-Max-Age", "3600")]⟩, stored, false⟩
  else
    let headers := [("Access-Control-Allow-Origin", "*")]
    let checked := check_rate_limit stored now
    let store2 := checked.2.2
    if checked.1 = false then
      ⟨⟨429, RATE_LIMIT_BODY,
        headers ++ [("Retry-After", toString checked.2.1)]⟩, store2, false⟩
    else
      match body with
      | none =>
        ⟨⟨400, "\x7b\"success\": false, \"error\": \"Request body is required\"\x7d",
          headers⟩, store2, false⟩
      | some j =>
        if pyFalsy j then
          ⟨⟨400, "\x7b\"success\": false, \"error\": \"Request body is required\"\x7d",
            headers⟩, store2, false⟩
        else
          match pyGet j "word" Json.null with
          | .error _ =>
            ⟨⟨500, "internal", headers⟩, store2, false⟩
          | .ok word =>
            match pyGet j "answers" (Json.arr []) with
            | .error _ => ⟨⟨500, "internal", headers⟩, store2, false⟩
            | .ok _answers =>
              match pyGet j "game_type" Json.null with
              | .error _ => ⟨⟨500, "internal", headers⟩, store2, false⟩
              | .ok game_type =>
                if pyFalsy word then
                  ⟨⟨400, "\x7b\"success\": false, \"error\": \"word is required\"\x7d",
                    headers⟩, store2, false⟩
                else if pyFalsy game_type ∨
                    (jsonEqStr game_type "word_replacement" = false ∧
                     jsonEqStr game_type "rhyming" = false) then
                  ⟨⟨400,
                    "\x7b\"success\": false, \"error\": \"game_type must be word_replacement or rhyming\"\x7d",
                    headers⟩, store2, false⟩
                else
                  match ai with
                  | .ok r =>
                    ⟨⟨200,
                      Json.dumps (Json.obj
                        [("success", Json.bool true),
                         ("score", Json.num r.score),
                         ("feedback", Json.str r.feedback)]),
                      headers⟩, store2, true⟩
                  | .error _ =>
                    ⟨⟨500, "ai-error", headers⟩, store2, true⟩

/-- Claim C8: for every get-words request, the requested day-count
defaults to 30 when absent and is clamped to [1, 30], and the resolved
date range is [today, today + count - 1]; in particular days=100
resolves to exactly a 30-day window whose end minus start equals 29
days. -/
theorem claim_C8_day_count (arg : Option Int) (today : Int) :
    1 ≤ get_words_days arg ∧ get_words_days arg ≤ 30 ∧
    get_words_days none = 30 ∧
    (get_words_range today arg).1 = today ∧
    (get_words_range today arg).2 - (get_words_range today arg).1 =
      get_words_days arg - 1 ∧
    get_words_days (some 100) = 30 ∧
    (get_words_range today (some 100)).2 - (get_words_range today (some 100)).1 = 29 := by
  cases arg <;> simp [get_words_range, get_words_days, min_def, max_def]
  all_goals (split_ifs <;> omega)

/-- Membership of the missing-dates list: exactly the in-range dates not
in the existing set. -/
theorem mem_get_missing_dates (E : Int → Bool) (e : Int) :
    ∀ s d, (d ∈ get_missing_dates E s e ↔ s ≤ d ∧ d ≤ e ∧ E d = false) := by
  have H : ∀ n : Nat, ∀ s, (e + 1 - s).toNat = n →
      ∀ d, (d ∈ get_missing_dates E s e ↔ s ≤ d ∧ d ≤ e ∧ E d = false) := by
    intro n
    induction n using Nat.strong_induction_on with
    | _ n ih =>
      intro s hn d
      rw [get_missing_dates]
      split
      · next hse =>
        rw [List.mem_append,
          ih ((e + 1 - (s + 1)).toNat) (by omega) (s + 1) rfl d]
        constructor
        · rintro (h1 | h2)
          · split at h1
            · simp at h1
            · next hE =>
              simp at h1
              subst h1
              exact ⟨le_refl _, hse, by simpa using hE⟩
          · exact ⟨by omega, h2.2.1, h2.2.2⟩
        · rintro ⟨hsd, hde, hEd⟩
          by_cases hds : d = s
          · subst hds
            left
            simp [hEd]
          · right
            exact ⟨by omega, hde, hEd⟩
      · next hse =>
        simp
        omega
  intro s d
  exact H ((e + 1 - s).toNat) s rfl d

/-- The missing-dates list is strictly increasing (so sorted ascending
with no duplicates). -/
theorem pairwise_get_missing_dates (E : Int → Bool) (e : Int) :
    ∀ s, List.Pairwise (· < ·) (get_missing_dates E s e) := by
  have H : ∀ n : Nat, ∀ s, (e + 1 - s).toNat = n →
      List.Pairwise (· < ·) (get_missing_dates E s e) := by
    intro n
    induction n using Nat.strong_induction_on with
    | _ n ih =>
      intro s hn
      rw [get_missing_dates]
      split
      · next hse =>
        apply List.pairwise_append.mpr
        refine ⟨?_, ih ((e + 1 - (s + 1)).toNat) (by omega) (s + 1) rfl, ?_⟩
        · split <;> simp
        · intro a ha b hb
          have hb2 := (mem_get_missing_dates E e (s + 1) b).mp hb
          split at ha <;> simp at ha
          subst ha
          omega
      · exact List.Pairwise.nil
  intro s
  exact H ((e + 1 - s).toNat) s rfl

/-- Claim C5: for every inclusive date range [s, e] and every set E of
existing date strings, the missing-dates function returns exactly the
dates in [s, e] that are not in E, sorted ascending, with no duplicates;
an empty range (s > e) yields the empty sequence, and the function has
no error cases (it is total). -/
theorem claim_C5_missing_dates (E : Int → Bool) (s e : Int) :
    (∀ d, d ∈ get_missing_dates E s e ↔ s ≤ d ∧ d ≤ e ∧ E d = false) ∧
    List.Pairwise (· < ·) (get_missing_dates E s e) ∧
    (e < s → get_missing_dates E s e = []) := by
  refine ⟨mem_get_missing_dates E e s, pairwise_get_missing_dates E e s, ?_⟩
  intro h
  rw [get_missing_dates, dif_neg (by omega)]

/-- Witness for claim C5 at a concrete input: the empty range 1..0 with
an empty existing set yields the empty list, and on 0..2 with only date
1 existing the function returns [0, 2]. -/
theorem claim_C5_missing_dates_witness :
    get_missing_dates (fun _ => false) 1 0 = [] ∧
    (1 ∈ get_missing_dates (fun d => d == 1) 0 2 ↔
      (0:Int) ≤ 1 ∧ (1:Int) ≤ 2 ∧ ((1:Int) == 1) = false) :=
  ⟨(claim_C5_missing_dates (fun _ => false) 1 0).2.2 (by decide),
   (claim_C5_missing_dates (fun d => d == 1) 0 2).1 1⟩

/-- Unfolding equation for `check_rate_limit` with the configuration
constants inlined. -/
theorem check_rate_limit_def (stored : List ℚ) (now : ℚ) :
    check_rate_limit stored now =
      if 10 ≤ (cleanup_old_requests stored (now - 60)).length then
        (false,
         max 1 (pyTruncQ (((cleanup_old_requests stored (now - 60)).min?.getD 0)
           + 60 - now) + 1),
         cleanup_old_requests stored (now - 60))
      else
        (true, 0, cleanup_old_requests stored (now - 60) ++ [now]) := rfl

/-- Every element the prune keeps is strictly inside the window. -/
theorem mem_cleanup (stored : List ℚ) (w x : ℚ)
    (hx : x ∈ cleanup_old_requests stored w) : w < x := by
  unfold cleanup_old_requests at hx
  have := (List.mem_filter.mp hx).2
  exact of_decide_eq_true this

/-- Claim C10: after any check for a client key whose prior stored list
respects the at-most-10 invariant, the key's stored timestamp list holds
at most 10 entries, every entry is strictly newer than now - 60 seconds,
and the post-state list is exactly the pruned prior list plus, when the
check was allowed, the single new timestamp now; a denied check adds
nothing. -/
theorem claim_C10_store_invariant (stored : List ℚ) (now : ℚ)
    (hlen : stored.length ≤ 10) :
    (check_rate_limit stored now).2.2.length ≤ 10 ∧
    (∀ x ∈ (check_rate_limit stored now).2.2, now - 60 < x) ∧
    (check_rate_limit stored now).2.2 =
      cleanup_old_requests stored (now - 60) ++
        (if (check_rate_limit stored now).1 then [now] else []) := by
  have hplen : (cleanup_old_requests stored (now - 60)).length ≤ stored.length :=
    List.length_filter_le _ _
  rw [check_rate_limit_def]
  by_cases hc : 10 ≤ (cleanup_old_requests stored (now - 60)).length
  · rw [if_pos hc]
    dsimp only
    refine ⟨by omega, ?_, by simp⟩
    intro x hx
    exact mem_cleanup stored _ x hx
  · rw [if_neg hc]
    dsimp only
    push_neg at hc
    refine ⟨?_, ?_, by simp⟩
    · simp only [List.length_append, List.length_singleton]
      omega
    · intro x hx
      rcases List.mem_append.mp hx with h | h
      · exact mem_cleanup stored _ x h
      · have : x = now := List.mem_singleton.mp h
        subst this
        linarith

/-- Witness for claim C10: a first check at time 0 on an empty store. -/
theorem claim_C10_store_invariant_witness :
    (([] : List ℚ).length ≤ 10) ∧
    ((check_rate_limit [] 0).2.2.length ≤ 10 ∧
     (∀ x ∈ (check_rate_limit [] 0).2.2, (0 : ℚ) - 60 < x) ∧
     (check_rate_limit [] 0).2.2 =
       cleanup_old_requests [] (0 - 60) ++
         (if (check_rate_limit [] 0).1 then [(0 : ℚ)] else [])) :=
  ⟨by decide, claim_C10_store_invariant [] 0 (by decide)⟩

/-- During a burst whose 11 instants all lie within one 60-second
window, no timestamp is ever pruned: after n ≤ 10 checks the stored list
is exactly the n request times in order. -/
theorem storeAfter_range (t : Nat → ℚ)
    (hmono : ∀ i j, i ≤ j → j ≤ 10 → t i ≤ t j)
    (hwin : t 10 < t 0 + 60) :
    ∀ n, n ≤ 10 → storeAfter t n = (List.range n).map t := by
  intro n
  induction n with
  | zero => intro _; rfl
  | succ k ih =>
    intro hk
    have hs := ih (by omega)
    show (check_rate_limit (storeAfter t k) (t k)).2.2 = _
    rw [hs, check_rate_limit_def]
    have hfil : cleanup_old_requests ((List.range k).map t) (t k - 60) =
        (List.range k).map t := by
      apply List.filter_eq_self.mpr
      intro a ha
      rcases List.mem_map.mp ha with ⟨j, hj, rfl⟩
      have hjk : j < k := List.mem_range.mp hj
      have h1 : t 0 ≤ t j := hmono 0 j (by omega) (by omega)
      have h2 : t k ≤ t 10 := hmono k 10 (by omega) (by omega)
      rw [decide_eq_true_eq]
      linarith
    rw [hfil]
    have hlen : ((List.range k).map t).length = k := by simp
    rw [if_neg (by omega)]
    simp [List.range_succ]

/-- Claim C1: a check first prunes the key's timestamps older than
now - 60 s; with at least 10 timestamps left it denies, returns
retry_after = floor(oldest_remaining + 60 - now) + 1 floored at 1, and
records nothing; otherwise it records now and allows.  In particular,
from a fresh key, 10 checks within 1 second are all allowed and an 11th
within the same 60-second window is denied with retry_after ≥ 1. -/
theorem claim_C1_rate_limiter :
    (∀ (stored : List ℚ) (now : ℚ),
      cleanup_old_requests stored (now - 60) =
        stored.filter (fun ts => decide (now - 60 < ts)) ∧
      (10 ≤ (cleanup_old_requests stored (now - 60)).length →
        (check_rate_limit stored now).1 = false ∧
        (check_rate_limit stored now).2.2 = cleanup_old_requests stored (now - 60) ∧
        ∀ m, (cleanup_old_requests stored (now - 60)).min? = some m →
          (check_rate_limit stored now).2.1 = max 1 (⌊m + 60 - now⌋ + 1)) ∧
      ((cleanup_old_requests stored (now - 60)).length < 10 →
        (check_rate_limit stored now).1 = true ∧
        (check_rate_limit stored now).2.1 = 0 ∧
        (check_rate_limit stored now).2.2 =
          cleanup_old_requests stored (now - 60) ++ [now])) ∧
    (∀ t : Nat → ℚ,
      (∀ i j, i ≤ j → j ≤ 10 → t i ≤ t j) →
      t 9 ≤ t 0 + 1 →
      t 10 < t 0 + 60 →
      (∀ n, n < 10 → (check_rate_limit (storeAfter t n) (t n)).1 = true) ∧
      (check_rate_limit (storeAfter t 10) (t 10)).1 = false ∧
      1 ≤ (check_rate_limit (storeAfter t 10) (t 10)).2.1) := by
  constructor
  · intro stored now
    refine ⟨rfl, ?_, ?_⟩
    · intro hc
      rw [check_rate_limit_def, if_pos hc]
      refine ⟨rfl, rfl, ?_⟩
      intro m hm
      have hmem : m ∈ cleanup_old_requests stored (now - 60) :=
        List.min?_mem min_choice hm
      have hpos : (0 : ℚ) ≤ m + 60 - now := by
        have := mem_cleanup stored (now - 60) m hmem
        linarith
      dsimp only
      rw [hm]
      show max 1 (pyTruncQ (m + 60 - now) + 1) = _
      rw [pyTruncQ, if_pos hpos]
    · intro hc
      rw [check_rate_limit_def, if_neg (by omega)]
      exact ⟨rfl, rfl, rfl⟩
  · intro t hmono h1s hwin
    have hsr := storeAfter_range t hmono hwin
    have hfil : ∀ n, n ≤ 10 →
        cleanup_old_requests ((List.range n).map t) (t n - 60) =
          (List.range n).map t := by
      intro n hn
      apply List.filter_eq_self.mpr
      intro a ha
      rcases List.mem_map.mp ha with ⟨j, hj, rfl⟩
      have hjn : j < n := List.mem_range.mp hj
      have ha1 : t 0 ≤ t j := hmono 0 j (by omega) (by omega)
      have ha2 : t n ≤ t 10 := hmono n 10 (by omega) (by omega)
      rw [decide_eq_true_eq]
      linarith
    refine ⟨?_, ?_, ?_⟩
    · intro n hn
      rw [hsr n (by omega), check_rate_limit_def, hfil n (by omega),
        if_neg (by simp; omega)]
    · rw [hsr 10 (by omega), check_rate_limit_def, hfil 10 (by omega),
        if_pos (by simp)]
    · rw [hsr 10 (by omega), check_rate_limit_def, hfil 10 (by omega),
        if_pos (by simp)]
      exact le_max_left 1 _

/-- Witness for claim C1: eleven checks at time 0 on a fresh key — the
first and the ten others are allowed, the eleventh is denied with
retry_after at least 1. -/
theorem claim_C1_rate_limiter_witness :
    (check_rate_limit (storeAfter (fun _ => (0 : ℚ)) 0) 0).1 = true ∧
    (check_rate_limit (storeAfter (fun _ => (0 : ℚ)) 10) 0).1 = false ∧
    1 ≤ (check_rate_limit (storeAfter (fun _ => (0 : ℚ)) 10) 0).2.1 := by
  have h := claim_C1_rate_limiter.2 (fun _ => (0 : ℚ))
    (fun _ _ _ _ => le_refl 0) (by norm_num) (by norm_num)
  exact ⟨h.1 0 (by norm_num), h.2.1, h.2.2⟩

/-- Counterexample to claim C2: a first request with game_type
"invalid" from a fresh client key gets the 400 response and never
reaches the AI layer, but its stored timestamp list changes from [] to
[now] — the rate-limit check runs before validation and records the
request, so the claim that the stored list is unchanged is false. -/
theorem claim_C2_counterexample :
    (score_answers_handler "POST"
      (some (Json.obj [("word", Json.str "概念"), ("game_type", Json.str "invalid")]))
      [] 0 (Except.ok ⟨0, ""⟩)).resp.status = 400 ∧
    (score_answers_handler "POST"
      (some (Json.obj [("word", Json.str "概念"), ("game_type", Json.str "invalid")]))
      [] 0 (Except.ok ⟨0, ""⟩)).aiCalled = false ∧
    (score_answers_handler "POST"
      (some (Json.obj [("word", Json.str "概念"), ("game_type", Json.str "invalid")]))
      [] 0 (Except.ok ⟨0, ""⟩)).store = [(0 : ℚ)] ∧
    [(0 : ℚ)] ≠ [] := by
  refine ⟨rfl, rfl, rfl, by decide⟩

/-- Claim C2 as amended: a score-answers request whose body has a
game_type outside the two enum values gets a 400 response (429 when the
rate limiter denies it) and never reaches the AI layer, but it does
consume a rate-limit slot: when admitted, the client's stored timestamp
list becomes the pruned prior list plus the request's own timestamp. -/
theorem claim_C2_amended (stored : List ℚ) (now : ℚ)
    (kvs : List (String × Json)) (ai : Except Unit ScoreResult) (w gt : Json)
    (hne : kvs ≠ [])
    (hw : objGet kvs "word" = some w) (_hwt : pyFalsy w = false)
    (hgt : objGet kvs "game_type" = some gt)
    (h1 : jsonEqStr gt "word_replacement" = false)
    (h2 : jsonEqStr gt "rhyming" = false) :
    (score_answers_handler "POST" (some (Json.obj kvs)) stored now ai).aiCalled = false ∧
    ((check_rate_limit stored now).1 = true →
      (score_answers_handler "POST" (some (Json.obj kvs)) stored now ai).resp.status = 400 ∧
      (score_answers_handler "POST" (some (Json.obj kvs)) stored now ai).store =
        cleanup_old_requests stored (now - 60) ++ [now]) ∧
    ((check_rate_limit stored now).1 = false →
      (score_answers_handler "POST" (some (Json.obj kvs)) stored now ai).resp.status = 429) := by
  by_cases hc : 10 ≤ (cleanup_old_requests stored (now - 60)).length
  · have hck : check_rate_limit stored now =
        (false,
         max 1 (pyTruncQ (((cleanup_old_requests stored (now - 60)).min?.getD 0)
           + 60 - now) + 1),
         cleanup_old_requests stored (now - 60)) := by
      rw [check_rate_limit_def, if_pos hc]
    simp [score_answers_handler, hck]
  · have hck : check_rate_limit stored now =
        (true, 0, cleanup_old_requests stored (now - 60) ++ [now]) := by
      rw [check_rate_limit_def, if_neg hc]
    have hbody : pyFalsy (Json.obj kvs) = false := by
      simp [pyFalsy, hne]
    simp [score_answers_handler, hck, pyGet, hw, hgt, hbody, h1, h2]
    split <;> simp

/-- Witness for the amended claim C2 at the counterexample's input. -/
theorem claim_C2_amended_witness :
    (score_answers_handler "POST"
      (some (Json.obj [("word", Json.str "概念"), ("game_type", Json.str "invalid")]))
      [] 0 (Except.ok ⟨0, ""⟩)).aiCalled = false ∧
    ((check_rate_limit [] 0).1 = true →
      (score_answers_handler "POST"
        (some (Json.obj [("word", Json.str "概念"), ("game_type", Json.str "invalid")]))
        [] 0 (Except.ok ⟨0, ""⟩)).resp.status = 400 ∧
      (score_answers_handler "POST"
        (some (Json.obj [("word", Json.str "概念"), ("game_type", Json.str "invalid")]))
        [] 0 (Except.ok ⟨0, ""⟩)).store =
          cleanup_old_requests [] ((0 : ℚ) - 60) ++ [(0 : ℚ)]) ∧
    ((check_rate_limit [] 0).1 = false →
      (score_answers_handler "POST"
        (some (Json.obj [("word", Json.str "概念"), ("game_type", Json.str "invalid")]))
        [] 0 (Except.ok ⟨0, ""⟩)).resp.status = 429) :=
  claim_C2_amended [] 0
    [("word", Json.str "概念"), ("game_type", Json.str "invalid")]
    (Except.ok ⟨0, ""⟩) (Json.str "概念") (Json.str "invalid")
    (by simp) rfl (by decide) rfl (by decide) (by decide)

/-- Claim C9: get-words returns 405 {error: "Method not allowed"} for a
method that is neither GET nor OPTIONS, answers OPTIONS with 204 and an
empty body on the wire, and every response on every path carries the
Access-Control-Allow-Origin: * header. -/
theorem claim_C9_method_dispatch :
    (∀ (m : String) (f : Except Unit (List Json)) (s e : String),
      m ≠ "GET" → m ≠ "OPTIONS" →
      (get_words_handler m f s e).status = 405 ∧
      (get_words_handler m f s e).body = "\x7b\"error\": \"Method not allowed\"\x7d") ∧
    (∀ (f : Except Unit (List Json)) (s e : String),
      (get_words_handler "OPTIONS" f s e).status = 204 ∧
      wireBody (get_words_handler "OPTIONS" f s e) = "") ∧
    (∀ (m : String) (f : Except Unit (List Json)) (s e : String),
      ("Access-Control-Allow-Origin", "*") ∈ (get_words_handler m f s e).headers) := by
  refine ⟨?_, ?_, ?_⟩
  · intro m f s e hg ho
    unfold get_words_handler
    rw [if_neg ho, if_pos hg]
    exact ⟨rfl, rfl⟩
  · intro f s e
    exact ⟨rfl, rfl⟩
  · intro m f s e
    cases f <;>
      (unfold get_words_handler
       split_ifs <;> simp [create_response, CORS_HEADERS])

/-- Witness for claim C9: a POST request is answered 405 with the
Method-not-allowed body, the preflight answer is 204 with empty wire
body, and a successful GET carries the CORS header. -/
theorem claim_C9_method_dispatch_witness :
    ((get_words_handler "POST" (Except.ok []) "" "").status = 405 ∧
     (get_words_handler "POST" (Except.ok []) "" "").body =
       "\x7b\"error\": \"Method not allowed\"\x7d") ∧
    ((get_words_handler "OPTIONS" (Except.ok []) "" "").status = 204 ∧
     wireBody (get_words_handler "OPTIONS" (Except.ok []) "" "") = "") ∧
    ("Access-Control-Allow-Origin", "*") ∈
      (get_words_handler "GET" (Except.ok []) "" "").headers :=
  ⟨claim_C9_method_dispatch.1 "POST" (Except.ok []) "" "" (by decide) (by decide),
   claim_C9_method_dispatch.2.1 (Except.ok []) "" "",
   claim_C9_method_dispatch.2.2 "GET" (Except.ok []) "" ""⟩

/-- Whether a decoded word entry passes the validation check of
gemini_client.py line 158: it is an object holding all four required
keys. -/
def wordValid (w : Json) : Bool :=
  match w with
  | .obj kvs => REQUIRED_WORD_KEYS.all (fun k => kvs.any (fun p => p.1 == k))
  | _ => false

/-- The record extracted from a valid word object (total companion of
`extractWord`). -/
def extractOk (w : Json) : WordRec :=
  match w with
  | .obj kvs =>
    ⟨(objGet kvs "date").getD .null, (objGet kvs "word").getD .null,
     (objGet kvs "reading").getD .null, (objGet kvs "word_en").getD .null⟩
  | _ => ⟨.null, .null, .null, .null⟩

/-- On an object, the key-presence conjunction never raises and computes
the all-keys test. -/
theorem allKeysIn_obj (keys : List String) (kvs : List (String × Json)) :
    allKeysIn keys (Json.obj kvs) =
      .ok (keys.all (fun k => kvs.any (fun p => p.1 == k))) := by
  induction keys with
  | nil => rfl
  | cons k ks ih =>
    show (match pyIn k (Json.obj kvs) with
      | Except.error e => Except.error e
      | Except.ok false => Except.ok false
      | Except.ok true => allKeysIn ks (Json.obj kvs)) = _
    cases h : kvs.any (fun p => p.1 == k) <;>
      simp [pyIn, h, ih, List.all_cons]

/-- The object lookup succeeds exactly when some binding carries the
key. -/
theorem objGet_isSome (kvs : List (String × Json)) (k : String) :
    (objGet kvs k).isSome = kvs.any (fun p => p.1 == k) := by
  unfold objGet
  cases h : List.find? (fun p => p.1 == k) kvs.reverse with
  | none =>
    have h2 := List.find?_eq_none.mp h
    simp only [Option.map_none', Option.isSome_none]
    symm
    rw [List.any_eq_false]
    intro p hp
    simpa using h2 p (List.mem_reverse.mpr hp)
  | some v =>
    have hmem : v ∈ kvs.reverse := List.mem_of_find?_eq_some h
    have hpv : (v.1 == k) = true := by
      have := List.find?_some h
      simpa using this
    simp only [Option.map_some', Option.isSome_some]
    symm
    rw [List.any_eq_true]
    exact ⟨v, List.mem_reverse.mp hmem, hpv⟩

/-- Extraction of a valid word object succeeds with the four looked-up
values. -/
theorem extractWord_of_valid (kvs : List (String × Json))
    (hv : wordValid (Json.obj kvs) = true) :
    extractWord (Json.obj kvs) = .ok (extractOk (Json.obj kvs)) := by
  have hall : ∀ k ∈ REQUIRED_WORD_KEYS, (objGet kvs k).isSome = true := by
    intro k hk
    rw [objGet_isSome]
    exact List.all_eq_true.mp hv k hk
  have hd := hall "date" (by simp [REQUIRED_WORD_KEYS])
  have hw := hall "word" (by simp [REQUIRED_WORD_KEYS])
  have hr := hall "reading" (by simp [REQUIRED_WORD_KEYS])
  have he := hall "word_en" (by simp [REQUIRED_WORD_KEYS])
  rcases Option.isSome_iff_exists.mp hd with ⟨vd, hvd⟩
  rcases Option.isSome_iff_exists.mp hw with ⟨vw, hvw⟩
  rcases Option.isSome_iff_exists.mp hr with ⟨vr, hvr⟩
  rcases Option.isSome_iff_exists.mp he with ⟨ve, hve⟩
  simp [extractWord, extractOk, pySubscript, hvd, hvw, hvr, hve]

/-- On a list of objects the validation loop never raises: it returns
exactly the valid entries, extracted, in order. -/
theorem validateWords_obj (ws : List Json) (hobj : ∀ w ∈ ws, w.isObj = true) :
    validateWords ws = .ok ((ws.filter wordValid).map extractOk) := by
  induction ws with
  | nil => rfl
  | cons w ws ih =>
    have hw : w.isObj = true := hobj w (List.mem_cons_self w ws)
    have ihw := ih (fun x hx => hobj x (List.mem_cons_of_mem w hx))
    obtain ⟨kvs, rfl⟩ : ∃ kvs, w = Json.obj kvs := by
      cases w <;> simp [Json.isObj] at hw ⊢
    show (match allKeysIn REQUIRED_WORD_KEYS (Json.obj kvs) with
      | Except.error e => Except.error e
      | Except.ok false => validateWords ws
      | Except.ok true =>
        match extractWord (Json.obj kvs) with
        | Except.error e => Except.error e
        | Except.ok r =>
          match validateWords ws with
          | Except.error e => Except.error e
          | Except.ok rs => Except.ok (r :: rs)) = _
    rw [allKeysIn_obj]
    cases hv : wordValid (Json.obj kvs) with
    | false =>
      have hv2 : REQUIRED_WORD_KEYS.all (fun k => kvs.any (fun p => p.1 == k)) = false := hv
      rw [hv2]
      simp only [ihw, List.filter_cons, hv]
      simp
    | true =>
      have hv2 : REQUIRED_WORD_KEYS.all (fun k => kvs.any (fun p => p.1 == k)) = true := hv
      rw [hv2, extractWord_of_valid kvs hv, ihw]
      simp only [List.filter_cons, hv, if_pos]
      simp

/-- Claim C6: for every parsed words array whose elements are objects,
some missing a required field (date, word, reading, word_en) and the
rest holding all of them, the validation loop raises no per-element
error and returns the valid elements, extracted, in order — its length
is the total element count minus the invalid count. -/
theorem claim_C6_lenient_validation (ws : List Json)
    (hobj : ∀ w ∈ ws, w.isObj = true) :
    validateWords ws = .ok ((ws.filter wordValid).map extractOk) ∧
    ((ws.filter wordValid).map extractOk).length =
      ws.length - (ws.filter (fun w => !wordValid w)).length := by
  refine ⟨validateWords_obj ws hobj, ?_⟩
  rw [List.length_map]
  have h1 : ws.countP wordValid = (ws.filter wordValid).length :=
    List.countP_eq_length_filter _ _
  have h2 : ws.countP (fun w => !wordValid w) =
      (ws.filter (fun w => !wordValid w)).length :=
    List.countP_eq_length_filter _ _
  have h3 := List.length_eq_countP_add_countP wordValid ws
  simp only [decide_not, Bool.decide_eq_true] at h3
  omega

/-- Witness for claim C6: three word objects, the middle one missing
its reading, validate to the first and third records. -/
theorem claim_C6_lenient_validation_witness :
    validateWords
      [Json.obj [("date", Json.str "2024-01-01"), ("word", Json.str "概念"),
        ("reading", Json.str "がいねん"), ("word_en", Json.str "concept")],
       Json.obj [("date", Json.str "2024-01-02"), ("word", Json.str "矛盾"),
        ("word_en", Json.str "contradiction")],
       Json.obj [("date", Json.str "2024-01-03"), ("word", Json.str "逆説"),
        ("reading", Json.str "ぎゃくせつ"), ("word_en", Json.str "paradox")]] =
      .ok (([Json.obj [("date", Json.str "2024-01-01"), ("word", Json.str "概念"),
        ("reading", Json.str "がいねん"), ("word_en", Json.str "concept")],
       Json.obj [("date", Json.str "2024-01-02"), ("word", Json.str "矛盾"),
        ("word_en", Json.str "contradiction")],
       Json.obj [("date", Json.str "2024-01-03"), ("word", Json.str "逆説"),
        ("reading", Json.str "ぎゃくせつ"), ("word_en", Json.str "paradox")]].filter
          wordValid).map extractOk) :=
  (claim_C6_lenient_validation _ (by decide)).1

/-- Counterexample to claim C7: a word entry carrying all four required
keys with integer values is returned as-is — the parser checks key
presence only, so the record's word value is not a string, contradicting
"correctly typed values". -/
theorem claim_C7_counterexample :
    validateWords [Json.obj [("date", Json.num 1), ("word", Json.num 2),
      ("reading", Json.num 3), ("word_en", Json.num 4)]] =
      .ok [⟨Json.num 1, Json.num 2, Json.num 3, Json.num 4⟩] ∧
    (WordRec.word ⟨Json.num 1, Json.num 2, Json.num 3, Json.num 4⟩).isStr = false :=
  ⟨rfl, rfl⟩

/-- Claim C7 as amended: every record returned by the word-generation
parser for an array of objects contains exactly the four required fields
(the record type has no others), with each value passed through verbatim
from the response object — no type check or coercion is applied, and any
extra fields are dropped. -/
theorem claim_C7_amended (ws : List Json) (rs : List WordRec)
    (hobj : ∀ w ∈ ws, w.isObj = true)
    (hok : validateWords ws = .ok rs) :
    ∀ r ∈ rs, ∃ w ∈ ws, wordValid w = true ∧
      pySubscript w "date" = .ok r.date ∧
      pySubscript w "word" = .ok r.word ∧
      pySubscript w "reading" = .ok r.reading ∧
      pySubscript w "word_en" = .ok r.word_en := by
  rw [validateWords_obj ws hobj] at hok
  have hrs : rs = (ws.filter wordValid).map extractOk := by
    injection hok with h
    exact h.symm
  subst hrs
  intro r hr
  rcases List.mem_map.mp hr with ⟨w, hwmem, rfl⟩
  have hwf := List.mem_filter.mp hwmem
  refine ⟨w, hwf.1, hwf.2, ?_⟩
  obtain ⟨kvs, rfl⟩ : ∃ kvs, w = Json.obj kvs := by
    have := hobj w hwf.1
    cases w <;> simp [Json.isObj] at this ⊢
  have hx := extractWord_of_valid kvs hwf.2
  unfold extractWord at hx
  rcases hsub1 : pySubscript (Json.obj kvs) "date" with e1 | v1 <;> rw [hsub1] at hx
  · exact absurd hx (by simp)
  rcases hsub2 : pySubscript (Json.obj kvs) "word" with e2 | v2 <;> rw [hsub2] at hx
  · exact absurd hx (by simp)
  rcases hsub3 : pySubscript (Json.obj kvs) "reading" with e3 | v3 <;> rw [hsub3] at hx
  · exact absurd hx (by simp)
  rcases hsub4 : pySubscript (Json.obj kvs) "word_en" with e4 | v4 <;> rw [hsub4] at hx
  · exact absurd hx (by simp)
  injection hx with hx2
  rw [← hx2]
  exact ⟨rfl, rfl, rfl, rfl⟩

/-- Witness for the amended claim C7 at the counterexample's input: the
single returned record's values are exactly the response object's
values, numbers included. -/
theorem claim_C7_amended_witness :
    ∃ w ∈ [Json.obj [("date", Json.num 1), ("word", Json.num 2),
      ("reading", Json.num 3), ("word_en", Json.num 4)]],
      wordValid w = true ∧
      pySubscript w "date" =
        .ok (WordRec.date ⟨Json.num 1, Json.num 2, Json.num 3, Json.num 4⟩) ∧
      pySubscript w "word" =
        .ok (WordRec.word ⟨Json.num 1, Json.num 2, Json.num 3, Json.num 4⟩) ∧
      pySubscript w "reading" =
        .ok (WordRec.reading ⟨Json.num 1, Json.num 2, Json.num 3, Json.num 4⟩) ∧
      pySubscript w "word_en" =
        .ok (WordRec.word_en ⟨Json.num 1, Json.num 2, Json.num 3, Json.num 4⟩) :=
  claim_C7_amended
    [Json.obj [("date", Json.num 1), ("word", Json.num 2),
      ("reading", Json.num 3), ("word_en", Json.num 4)]]
    [⟨Json.num 1, Json.num 2, Json.num 3, Json.num 4⟩]
    (by decide) rfl
    ⟨Json.num 1, Json.num 2, Json.num 3, Json.num 4⟩
    (List.mem_singleton.mpr rfl)

/-- Whether Python `int()` applied to the score field of a decoded
scoring object terminates normally or with the caught `ValueError`
(rather than the uncaught `TypeError`). -/
def scoreCoercionOk (kvs : List (String × Json)) : Bool :=
  match pyIntOf ((objGet kvs "score").getD (Json.num 0)) with
  | .ok _ => true
  | .error .valueError => true
  | .error _ => false

/-- Counterexample to claim C3: the input "[]" is valid JSON, so the
decode succeeds, and `.get` on the resulting list raises an
AttributeError that the `except (json.JSONDecodeError, ValueError)`
clause does not catch — the scoring parser does raise on this input
instead of returning the degraded default. -/
theorem claim_C3_counterexample :
    parse_score_response "[]".toList = .error .attributeError ∧
    exOk (parse_score_response "[]".toList) = false := ⟨rfl, rfl⟩

/-- Claim C3 as amended: the scoring parser returns the degraded default
{score: 0, feedback: localized message} when the cleaned text fails to
decode as JSON, and also when the decoded object's score field is a
string that int() rejects (ValueError, caught); when the decoded value
is an object whose score coerces, it returns {score: int(score value,
default 0 if absent), feedback: str(feedback value, default "")}.  It
does raise — contrary to the claim — exactly when the decoded value is
not an object (AttributeError) or the score value is null, an array or
an object (TypeError). -/
theorem claim_C3_amended (cs : List Char) :
    (Json.loads (cleanResponseText cs) = none →
      parse_score_response cs = .ok ⟨0, SCORE_PARSE_FAIL_MSG⟩) ∧
    (∀ kvs, Json.loads (cleanResponseText cs) = some (Json.obj kvs) →
      (∀ n, pyIntOf ((objGet kvs "score").getD (Json.num 0)) = .ok n →
        parse_score_response cs =
          .ok ⟨n, pyStrOf ((objGet kvs "feedback").getD (Json.str ""))⟩) ∧
      (pyIntOf ((objGet kvs "score").getD (Json.num 0)) = .error .valueError →
        parse_score_response cs = .ok ⟨0, SCORE_PARSE_FAIL_MSG⟩)) ∧
    (exOk (parse_score_response cs) = true ↔
      (Json.loads (cleanResponseText cs) = none ∨
       ∃ kvs, Json.loads (cleanResponseText cs) = some (Json.obj kvs) ∧
         scoreCoercionOk kvs = true)) := by
  unfold parse_score_response
  cases hload : Json.loads (cleanResponseText cs) with
  | none =>
    refine ⟨fun _ => rfl, fun kvs hk => absurd hk (by simp), ?_⟩
    simp [exOk]
  | some j =>
    cases j with
    | obj kvs =>
      refine ⟨fun h => absurd h (by simp), ?_, ?_⟩
      · intro kvs2 hk
        have hkv : kvs2 = kvs := by
          injection hk with h2
          injection h2 with h3
          exact h3.symm
        subst hkv
        constructor
        · intro n hn
          simp [pyGet, hn]
        · intro hv
          simp [pyGet, hv]
      · simp only [pyGet]
        cases hint : pyIntOf ((objGet kvs "score").getD (Json.num 0)) with
        | ok n =>
          simp [exOk, hint, scoreCoercionOk]
        | error e =>
          cases e <;> simp [exOk, hint, scoreCoercionOk]
    | null =>
      refine ⟨fun h => absurd h (by simp), fun kvs hk => absurd hk (by simp), ?_⟩
      simp [exOk, pyGet]
    | bool b =>
      refine ⟨fun h => absurd h (by simp), fun kvs hk => absurd hk (by simp), ?_⟩
      simp [exOk, pyGet]
    | num n =>
      refine ⟨fun h => absurd h (by simp), fun kvs hk => absurd hk (by simp), ?_⟩
      simp [exOk, pyGet]
    | str s =>
      refine ⟨fun h => absurd h (by simp), fun kvs hk => absurd hk (by simp), ?_⟩
      simp [exOk, pyGet]
    | arr xs =>
      refine ⟨fun h => absurd h (by simp), fun kvs hk => absurd hk (by simp), ?_⟩
      simp [exOk, pyGet]

/-- Witness for the amended claim C3: a non-JSON input degrades to the
default; a well-formed scoring object is extracted. -/
theorem claim_C3_amended_witness :
    parse_score_response "not json".toList = .ok ⟨0, SCORE_PARSE_FAIL_MSG⟩ ∧
    parse_score_response "\x7b\"score\": 85, \"feedback\": \"ok\"\x7d".toList =
      .ok ⟨85, pyStrOf ((objGet [("score", Json.num 85), ("feedback", Json.str "ok")]
        "feedback").getD (Json.str ""))⟩ :=
  ⟨(claim_C3_amended "not json".toList).1 rfl,
   ((claim_C3_amended "\x7b\"score\": 85, \"feedback\": \"ok\"\x7d".toList).2.1
      [("score", Json.num 85), ("feedback", Json.str "ok")] rfl).1 85 rfl⟩

/-- The strip model as a dropWhile/rdropWhile composition. -/
theorem pyStrip_eq (cs : List Char) :
    pyStrip cs = List.rdropWhile Char.isWhitespace (cs.dropWhile Char.isWhitespace) := rfl

/-- Stripping absorbs a leading whitespace character. -/
theorem pyStrip_cons_ws (a : Char) (ha : a.isWhitespace = true) (l : List Char) :
    pyStrip (a :: l) = pyStrip l := by
  simp [pyStrip, List.dropWhile_cons_of_pos ha]

/-- Stripping absorbs a trailing whitespace character. -/
theorem pyStrip_concat_ws (b : Char) (hb : b.isWhitespace = true) (l : List Char) :
    pyStrip (l ++ [b]) = pyStrip l := by
  rw [pyStrip_eq, pyStrip_eq, List.dropWhile_append]
  split
  · next h =>
    rw [List.isEmpty_iff] at h
    rw [h]
    simp [List.dropWhile_cons_of_pos hb, List.rdropWhile]
  · rw [List.rdropWhile_concat, if_pos hb]

/-- A list with non-whitespace first and last characters strips to itself. -/
theorem pyStrip_sandwich (a b : Char) (ha : a.isWhitespace = false)
    (hb : b.isWhitespace = false) (m : List Char) :
    pyStrip (a :: (m ++ [b])) = a :: (m ++ [b]) := by
  rw [pyStrip_eq, List.dropWhile_cons_of_neg (by simp [ha]), ← List.cons_append,
    List.rdropWhile_concat_neg _ _ _ (by simp [hb])]

/-- Stripping is idempotent. -/
theorem pyStrip_idem (l : List Char) : pyStrip (pyStrip l) = pyStrip l := by
  rw [pyStrip_eq l, pyStrip_eq]
  have hd : List.dropWhile Char.isWhitespace
      (List.rdropWhile Char.isWhitespace (l.dropWhile Char.isWhitespace)) =
      List.rdropWhile Char.isWhitespace (l.dropWhile Char.isWhitespace) := by
    set d := l.dropWhile Char.isWhitespace with hdef
    have hpre : List.rdropWhile Char.isWhitespace d <+: d := List.rdropWhile_prefix _ _
    rcases hr : List.rdropWhile Char.isWhitespace d with _ | ⟨x, xs⟩
    · rfl
    · rw [hr] at hpre
      rcases hpre with ⟨t, ht⟩
      have hx : d.dropWhile Char.isWhitespace = d := List.dropWhile_idempotent _ _
      rw [← ht] at hx
      rw [List.cons_append] at hx
      rw [List.dropWhile_eq_self_iff] at hx
      have := hx (by simp)
      simp at this
      rw [List.dropWhile_cons_of_neg (by simpa using this)]
  rw [hd, List.rdropWhile_idempotent]

/-- On a text whose stripped form neither starts nor ends with a fence, cleaning is just stripping. -/
theorem cleanResponseText_of_unfenced (p : List Char)
    (h1 : "```".toList.isPrefixOf (pyStrip p) = false)
    (h2 : "```".toList.isSuffixOf (pyStrip p) = false) :
    cleanResponseText p = pyStrip p := by
  have hj : "```json".toList.isPrefixOf (pyStrip p) = false := by
    by_contra hc
    rw [Bool.not_eq_false, List.isPrefixOf_iff_prefix] at hc
    have : "```".toList <+: pyStrip p :=
      List.IsPrefix.trans (by decide) hc
    rw [← List.isPrefixOf_iff_prefix] at this
    rw [this] at h1
    cases h1
  simp only [cleanResponseText, hj, h1, h2, Bool.false_eq_true, if_false]
  exact pyStrip_idem p

/-- Strip-to-itself, phrased for an appended shape. -/
theorem pyStrip_outer (c d : Char) (hc : c.isWhitespace = false)
    (hd : d.isWhitespace = false) (u v : List Char) :
    pyStrip ((c :: u) ++ (v ++ [d])) = (c :: u) ++ (v ++ [d]) := by
  have h : (c :: u) ++ (v ++ [d]) = c :: ((u ++ v) ++ [d]) := by simp
  rw [h, pyStrip_sandwich c d hc hd]

/-- Cleaning a json-tagged fenced wrapping of p yields the cleaning of p. -/
theorem clean_wrap_json (p : List Char)
    (h1 : "```".toList.isPrefixOf (pyStrip p) = false)
    (h2 : "```".toList.isSuffixOf (pyStrip p) = false) :
    cleanResponseText ("```json\n".toList ++ (p ++ "\n```".toList)) = cleanResponseText p := by
  rw [cleanResponseText_of_unfenced p h1 h2]
  have hshape : "```json\n".toList ++ (p ++ "\n```".toList) =
      ('`' :: "``json\n".toList) ++ ((p ++ "\n``".toList) ++ ['`']) := by simp
  have hstrip : pyStrip ("```json\n".toList ++ (p ++ "\n```".toList)) =
      "```json\n".toList ++ (p ++ "\n```".toList) := by
    rw [hshape, pyStrip_outer _ _ (by decide) (by decide)]
  have hpre : "```json".toList.isPrefixOf
      ("```json\n".toList ++ (p ++ "\n```".toList)) = true := by
    have hshape2 : "```json\n".toList ++ (p ++ "\n```".toList) =
        "```json".toList ++ ('\n' :: (p ++ "\n```".toList)) := by simp
    rw [hshape2, List.isPrefixOf_iff_prefix]
    exact List.prefix_append _ _
  have hdrop : ("```json\n".toList ++ (p ++ "\n```".toList)).drop 7 =
      '\n' :: (p ++ "\n```".toList) := by
    have hshape2 : "```json\n".toList ++ (p ++ "\n```".toList) =
        "```json".toList ++ ('\n' :: (p ++ "\n```".toList)) := by simp
    have h7 : ("```json".toList).length = 7 := rfl
    rw [hshape2, ← h7, List.drop_left]
  have hpre3 : "```".toList.isPrefixOf ('\n' :: (p ++ "\n```".toList)) = false := rfl
  have hshape3 : '\n' :: (p ++ "\n```".toList) =
      ('\n' :: (p ++ ['\n'])) ++ "```".toList := by simp
  have hsuf : "```".toList.isSuffixOf ('\n' :: (p ++ "\n```".toList)) = true := by
    rw [hshape3, List.isSuffixOf_iff_suffix]
    exact List.suffix_append _ _
  have htake : ('\n' :: (p ++ "\n```".toList)).take
      (('\n' :: (p ++ "\n```".toList)).length - 3) = '\n' :: (p ++ ['\n']) := by
    rw [hshape3]
    apply List.take_left'
    simp
  simp only [cleanResponseText, hstrip, hpre, hdrop, hpre3, hsuf, htake, if_true,
    Bool.false_eq_true, if_false]
  rw [pyStrip_cons_ws '\n' (by decide), pyStrip_concat_ws '\n' (by decide)]

/-- Cleaning an untagged fenced wrapping of p yields the cleaning of p. -/
theorem clean_wrap_bare (p : List Char)
    (h1 : "```".toList.isPrefixOf (pyStrip p) = false)
    (h2 : "```".toList.isSuffixOf (pyStrip p) = false) :
    cleanResponseText ("```\n".toList ++ (p ++ "\n```".toList)) = cleanResponseText p := by
  rw [cleanResponseText_of_unfenced p h1 h2]
  have hshape : "```\n".toList ++ (p ++ "\n```".toList) =
      ('`' :: "``\n".toList) ++ ((p ++ "\n``".toList) ++ ['`']) := by simp
  have hstrip : pyStrip ("```\n".toList ++ (p ++ "\n```".toList)) =
      "```\n".toList ++ (p ++ "\n```".toList) := by
    rw [hshape, pyStrip_outer _ _ (by decide) (by decide)]
  have hprej : "```json".toList.isPrefixOf
      ("```\n".toList ++ (p ++ "\n```".toList)) = false := rfl
  have hpre : "```".toList.isPrefixOf
      ("```\n".toList ++ (p ++ "\n```".toList)) = true := by
    have hshape2 : "```\n".toList ++ (p ++ "\n```".toList) =
        "```".toList ++ ('\n' :: (p ++ "\n```".toList)) := by simp
    rw [hshape2, List.isPrefixOf_iff_prefix]
    exact List.prefix_append _ _
  have hdrop : ("```\n".toList ++ (p ++ "\n```".toList)).drop 3 =
      '\n' :: (p ++ "\n```".toList) := by
    have hshape2 : "```\n".toList ++ (p ++ "\n```".toList) =
        "```".toList ++ ('\n' :: (p ++ "\n```".toList)) := by simp
    have h3 : ("```".toList).length = 3 := rfl
    rw [hshape2, ← h3, List.drop_left]
  have hshape3 : '\n' :: (p ++ "\n```".toList) =
      ('\n' :: (p ++ ['\n'])) ++ "```".toList := by simp
  have hsuf : "```".toList.isSuffixOf ('\n' :: (p ++ "\n```".toList)) = true := by
    rw [hshape3, List.isSuffixOf_iff_suffix]
    exact List.suffix_append _ _
  have htake : ('\n' :: (p ++ "\n```".toList)).take
      (('\n' :: (p ++ "\n```".toList)).length - 3) = '\n' :: (p ++ ['\n']) := by
    rw [hshape3]
    apply List.take_left'
    simp
  simp only [cleanResponseText, hstrip, hprej, hpre, hdrop, hsuf, htake, if_true,
    Bool.false_eq_true, if_false]
  rw [pyStrip_cons_ws '\n' (by decide), pyStrip_concat_ws '\n' (by decide)]

/-- A fenced-code-block wrapping of a payload: opening fence with an
optional language tag, the payload on its own lines, closing fence. -/
def fenceWrap (tag : List Char) (p : List Char) : List Char :=
  ("```".toList ++ tag) ++ ('\n' :: (p ++ "\n```".toList))

/-- Counterexample to claim C4: with the language tag "js" the cleaning
only removes the three backticks, leaving "js\n..." which is not JSON —
the word parser raises a parse error and the scoring parser degrades to
the default, while the unwrapped payloads parse normally.  The claim's
"optional language tag" holds only for the tag "json". -/
theorem claim_C4_counterexample :
    parse_response (fenceWrap "js".toList "\x7b\"words\": []\x7d".toList) =
      .error .parseInvalidJson ∧
    parse_response "\x7b\"words\": []\x7d".toList = .ok [] ∧
    exOk (parse_response (fenceWrap "js".toList "\x7b\"words\": []\x7d".toList)) ≠
      exOk (parse_response "\x7b\"words\": []\x7d".toList) ∧
    parse_score_response
        (fenceWrap "js".toList "\x7b\"score\": 85, \"feedback\": \"ok\"\x7d".toList) =
      .ok ⟨0, SCORE_PARSE_FAIL_MSG⟩ ∧
    parse_score_response "\x7b\"score\": 85, \"feedback\": \"ok\"\x7d".toList =
      .ok ⟨85, "ok"⟩ ∧
    (⟨0, SCORE_PARSE_FAIL_MSG⟩ : ScoreResult) ≠ ⟨85, "ok"⟩ :=
  ⟨rfl, rfl, by decide, rfl, rfl, by decide⟩

/-- Claim C4 as amended: for every payload p whose stripped form neither
starts nor ends with a fence marker, wrapping p in a fenced code block
tagged "json" or untagged yields the same parse result as the unwrapped
payload, for both the word-generation parser and the scoring parser (a
wrapping with any other language tag does not, see the
counterexample). -/
theorem claim_C4_amended (p : List Char)
    (h1 : "```".toList.isPrefixOf (pyStrip p) = false)
    (h2 : "```".toList.isSuffixOf (pyStrip p) = false) :
    cleanResponseText (fenceWrap "json".toList p) = cleanResponseText p ∧
    cleanResponseText (fenceWrap [] p) = cleanResponseText p ∧
    parse_response (fenceWrap "json".toList p) = parse_response p ∧
    parse_response (fenceWrap [] p) = parse_response p ∧
    parse_score_response (fenceWrap "json".toList p) = parse_score_response p ∧
    parse_score_response (fenceWrap [] p) = parse_score_response p := by
  have hj : cleanResponseText (fenceWrap "json".toList p) = cleanResponseText p := by
    have hsh : fenceWrap "json".toList p =
        "```json\n".toList ++ (p ++ "\n```".toList) := by simp [fenceWrap]
    rw [hsh]
    exact clean_wrap_json p h1 h2
  have hb : cleanResponseText (fenceWrap [] p) = cleanResponseText p := by
    have hsh : fenceWrap [] p = "```\n".toList ++ (p ++ "\n```".toList) := by
      simp [fenceWrap]
    rw [hsh]
    exact clean_wrap_bare p h1 h2
  refine ⟨hj, hb, ?_, ?_, ?_, ?_⟩ <;>
    simp only [parse_response, parse_score_response, hj, hb]

/-- Witness for the amended claim C4 at a concrete JSON payload. -/
theorem claim_C4_amended_witness :
    parse_response (fenceWrap "json".toList "\x7b\"words\": []\x7d".toList) =
      parse_response "\x7b\"words\": []\x7d".toList ∧
    parse_response (fenceWrap [] "\x7b\"words\": []\x7d".toList) =
      parse_response "\x7b\"words\": []\x7d".toList :=
  ⟨(claim_C4_amended "\x7b\"words\": []\x7d".toList (by decide) (by decide)).2.2.1,
   (claim_C4_amended "\x7b\"words\": []\x7d".toList (by decide) (by decide)).2.2.2.1⟩
